import Mathlib

/-!
Shallow embedding of the chunked parallel analysis pipeline of the
ollama3-repo-analyzer backend:

* `CodebaseChunkingAgent.js` — the Decomposer (`chunkRepository`,
  `createFallbackChunks`, `groupFilesByType`, `validateAndCleanChunks`),
* `ParallelAnalysisCoordinator.js` — the Scheduler/Executor
  (`processChunksInParallel`, `processChunkWithRetry`),
* `ResultsAggregator.js` — the Aggregator (`aggregateResults` and its
  merge helpers),
* `AgentOrchestrator.js` — the Orchestrator (`analyzeRepository`,
  `combineChunkedResults`, `countFilesInRepository`).

External LLM-backed collaborators (the repository analyzer, the chunking
assist, the synthesis assist, the diagram builder) are opaque: their
outcomes enter the model as explicit parameters, exactly at the points
where the JavaScript code awaits them.  JavaScript strings are modelled
as Lean `String`; `toLowerCase` is modelled on the ASCII range, which is
the only range the embedded heuristics and the concrete inputs in this
file exercise.  Absent/falsy JS string fields are modelled as `""` and
absent array fields as `Option`/`[]`, matching the `||`-defaulting the
source applies.
-/

namespace RepoAnalyzer

/-! ## JavaScript string primitives -/

/-- ASCII case folding of one character, as `String.prototype.toLowerCase`
behaves on the ASCII range. -/
def jsLowerChar (c : Char) : Char :=
  if 'A' ≤ c ∧ c ≤ 'Z' then Char.ofNat (c.toNat + 32) else c

/-- Model of `s.toLowerCase()` (ASCII range). -/
def jsToLower (s : String) : String := ⟨s.data.map jsLowerChar⟩

/-- Character-list prefix test: first argument is the candidate prefix. -/
def charsStartWith : List Char → List Char → Bool
  | [], _ => true
  | _ :: _, [] => false
  | a :: as, b :: bs => a == b && charsStartWith as bs

/-- Model of `hay.includes(needle)` for JS strings. -/
def containsSub (hay needle : String) : Bool :=
  hay.data.tails.any (fun t => charsStartWith needle.data t)

/-- Characters of the last `'.'`-separated segment: the accumulator holds
the segment read so far and is reset at every dot, which is exactly
`file.split('.').pop()`. -/
def lastSegAux : List Char → List Char → List Char
  | acc, [] => acc
  | acc, c :: rest => if c == '.' then lastSegAux [] rest else lastSegAux (acc ++ [c]) rest

/-- Model of `file.split('.').pop()?.toLowerCase()` — the lower-cased
extension (the whole name when there is no dot). -/
def extOf (s : String) : String := jsToLower ⟨lastSegAux [] s.data⟩

/-- JS whitespace as far as `String.prototype.trim` is concerned for the
characters occurring here. -/
def isJsWhitespace (c : Char) : Bool :=
  c == ' ' || c == '\t' || c == '\n' || c == '\r'

/-- Model of `s.trim()`. -/
def jsTrim (s : String) : String :=
  ⟨((s.data.dropWhile isJsWhitespace).reverse.dropWhile isJsWhitespace).reverse⟩

/-- Split a character list at every occurrence of `sep` — the JS
`s.split(sep)` semantics for a one-character separator (an empty input
gives one empty piece, a trailing separator a trailing empty piece). -/
def splitOnChar (sep : Char) : List Char → List (List Char)
  | [] => [[]]
  | c :: rest =>
    match splitOnChar sep rest with
    | [] => [[]]
    | g :: gs => if c == sep then [] :: g :: gs else (c :: g) :: gs

/-- The lines of the tree text — `repoTree.split('\n')`. -/
def treeLines (repoTree : String) : List (List Char) :=
  splitOnChar '\n' repoTree.data

/-- Model of `extractFilesFromTree`: keep lines starting `"- "`, strip the
marker, trim, drop empties. -/
def extractFilesFromTree (repoTree : String) : List String :=
  (((treeLines repoTree).filter (fun l => charsStartWith "- ".data l)).map
      (fun l => jsTrim ⟨l.drop 2⟩)).filter (fun f => f.length > 0)

/-! ## Decomposer: `CodebaseChunkingAgent` -/

/-- Constructor configuration of `CodebaseChunkingAgent` (defaults
`maxChunkSize = 200`, `maxChunks = 10`, `minChunkSize = 50`). -/
structure ChunkingConfig where
  maxChunkSize : Nat
  maxChunks : Nat
  minChunkSize : Nat
deriving DecidableEq

/-- The seven group keys of the `groups` object literal in
`groupFilesByType`. -/
inductive FileCategory where
  | frontend
  | backend
  | configuration
  | tests
  | documentation
  | utilities
  | other
deriving DecidableEq

/-- Key string of a category in the `groups` object literal. -/
def categoryName : FileCategory → String
  | .frontend => "Frontend"
  | .backend => "Backend"
  | .configuration => "Configuration"
  | .tests => "Tests"
  | .documentation => "Documentation"
  | .utilities => "Utilities"
  | .other => "Other"

/-- Declaration order of the keys in the `groups` object literal, which is
the iteration order of `Object.entries(groups)`. -/
def allCategories : List FileCategory :=
  [.frontend, .backend, .configuration, .tests, .documentation, .utilities, .other]

/-- The if/else-if classification chain of `groupFilesByType`, in source
order (`filename` and `path` are both `file.toLowerCase()`). -/
def classifyFile (file : String) : FileCategory :=
  let ext := extOf file
  let lower := jsToLower file
  if containsSub lower "src/app" || containsSub lower "components" ||
     ext == "html" || ext == "scss" || ext == "css" then .frontend
  else if containsSub lower "src/" &&
     (ext == "ts" || ext == "js" || ext == "py" || ext == "java") then .backend
  else if containsSub lower "test" || containsSub lower "spec" || ext == "test" then .tests
  else if containsSub lower "readme" || containsSub lower "doc" || ext == "md" then .documentation
  else if containsSub lower "config" || containsSub lower "package" ||
     containsSub lower "yarn" || ext == "json" || ext == "yml" || ext == "yaml" then .configuration
  else if containsSub lower "utils" || containsSub lower "helpers" ||
     containsSub lower "common" then .utilities
  else .other

/-- The static category→priority table `getPriorityForType`. -/
def getPriorityForType (t : String) : String :=
  if t == "Frontend" then "high"
  else if t == "Backend" then "high"
  else if t == "Configuration" then "medium"
  else if t == "Tests" then "low"
  else if t == "Documentation" then "low"
  else if t == "Utilities" then "medium"
  else if t == "Other" then "low"
  else "low"

/-- A WorkUnit as built by the chunking agent (fields of the chunk object
literals in `createFallbackChunks` / `validateAndCleanChunks` /
`createSingleChunk`). -/
structure Chunk where
  id : String
  name : String
  description : String
  files : List String
  priority : String
  dependencies : List String
  chunk_type : String
deriving DecidableEq

/-- All seven `(key, bucket)` pairs of `groupFilesByType` before empty
groups are deleted; each file lands in the bucket of its classification. -/
def groupsAll (files : List String) : List (String × List String) :=
  allCategories.map (fun c => (categoryName c, files.filter (fun f => decide (classifyFile f = c))))

/-- Model of `groupFilesByType`: the seven buckets in declaration order
with empty buckets deleted. -/
def groupFilesByType (files : List String) : List (String × List String) :=
  (groupsAll files).filter (fun g => !g.2.isEmpty)

/-- `chunkSize = Math.min(maxChunkSize, Math.ceil(files.length / maxChunks))`
(for `maxChunks ≥ 1` the Nat formula is exactly the JS real-valued ceil). -/
def chunkSizeOf (cfg : ChunkingConfig) (files : List String) : Nat :=
  min cfg.maxChunkSize ((files.length + cfg.maxChunks - 1) / cfg.maxChunks)

/-- Fixed-size slicing of one bucket (`typeFiles.slice(i, i + chunkSize)`
for `i = 0, chunkSize, 2·chunkSize, …`), fuelled by the list length so the
definition is total; with page size ≥ 1 the fuel is never exhausted. -/
def slicePagesAux (n : Nat) : Nat → List α → List (List α)
  | 0, _ => []
  | _ + 1, [] => []
  | fuel + 1, a :: rest => (a :: rest).take n :: slicePagesAux n fuel ((a :: rest).drop n)

/-- The pages of one bucket, in order. -/
def slicePages (n : Nat) (l : List α) : List (List α) := slicePagesAux n l.length l

/-- Chunk records of one bucket's pages: `cid` is the running global
`chunkId` counter and `part` the 1-based page ordinal used in the name. -/
def pagesToChunks (tname : String) : Nat → Nat → List (List String) → List Chunk
  | _, _, [] => []
  | cid, part, pg :: rest =>
    { id := s!"chunk_{cid}",
      name := tname ++ s!" (Part {part})",
      description := "Files from " ++ tname ++ " category",
      files := pg,
      priority := getPriorityForType tname,
      dependencies := [],
      chunk_type := jsToLower tname } :: pagesToChunks tname (cid + 1) (part + 1) rest

/-- The double loop of `createFallbackChunks`: buckets in order, each
sliced into pages, with the global `chunkId` counter threaded through. -/
def fallbackChunksGo (cs : Nat) : Nat → List (String × List String) → List Chunk
  | _, [] => []
  | cid, g :: rest =>
    let pages := slicePages cs g.2
    pagesToChunks g.1 cid 1 pages ++ fallbackChunksGo cs (cid + pages.length) rest

/-- The `data` payload returned by the chunking agent. -/
structure ChunkingData where
  chunks : List Chunk
  chunkingStrategy : String
  totalFiles : Nat
  chunkCount : Nat
  estimatedProcessingTime : String
deriving DecidableEq

/-- Model of `createFallbackChunks` (the deterministic fallback
decomposition). -/
def createFallbackChunks (cfg : ChunkingConfig) (files : List String) : ChunkingData :=
  let cs := chunkSizeOf cfg files
  let chunks := fallbackChunksGo cs 1 (groupFilesByType files)
  { chunks := chunks,
    chunkingStrategy := "Fallback rule-based chunking",
    totalFiles := files.length,
    chunkCount := chunks.length,
    estimatedProcessingTime :=
      (let a := chunks.length * 30
       let b := chunks.length * 60
       s!"{a}-{b} seconds") }

/-- A chunk object of the parsed assist-capability proposal, before
validation.  `files := none` models a missing / non-array `files` field;
`""` models absent string fields (falsy under `||`). -/
structure ProposedChunk where
  id : String
  name : String
  description : String
  files : Option (List String)
  priority : String
  dependencies : List String
  chunk_type : String
deriving DecidableEq

/-- The `chunks.forEach((chunk, index) => …)` body of
`validateAndCleanChunks`: `index` is the position in the original
proposal array, counted over skipped chunks as well. -/
def validateChunksGo (allFiles : List String) : Nat → List ProposedChunk → List Chunk
  | _, [] => []
  | index, pc :: rest =>
    match pc.files with
    | none => validateChunksGo allFiles (index + 1) rest
    | some fs =>
      let valid := fs.filter (fun f => allFiles.contains f)
      if valid.isEmpty then validateChunksGo allFiles (index + 1) rest
      else
        (let i1 := index + 1
         { id := if pc.id = "" then s!"chunk_{i1}" else pc.id,
           name := if pc.name = "" then s!"Chunk {i1}" else pc.name,
           description := if pc.description = "" then "Generated chunk" else pc.description,
           files := valid,
           priority := if pc.priority = "" then "medium" else pc.priority,
           dependencies := pc.dependencies,
           chunk_type := if pc.chunk_type = "" then "mixed" else pc.chunk_type }) ::
        validateChunksGo allFiles (index + 1) rest

/-- Model of `validateAndCleanChunks`: drops files not present in the
source set, skips chunks left empty, fills defaulted metadata. -/
def validateAndCleanChunks (pcs : List ProposedChunk) (allFiles : List String) : List Chunk :=
  validateChunksGo allFiles 0 pcs

/-- Outcome of the chunking assist capability as seen after JSON
parsing: `failed` covers an invoke error, unparsable text, or no JSON;
`parsed none` covers a JSON object with a missing/non-array `chunks`
field (which makes `validateAndCleanChunks` throw). -/
inductive AiChunkResponse where
  | failed : AiChunkResponse
  | parsed (chunks : Option (List ProposedChunk)) (strategy : String) (estimatedTime : String)
deriving DecidableEq

/-- Model of `createIntelligentChunks`: `none` is the `success: false`
return (any thrown error), `some` the `success: true` payload. -/
def createIntelligentChunks (files : List String) : AiChunkResponse → Option ChunkingData
  | .failed => none
  | .parsed none _ _ => none
  | .parsed (some pcs) strat est =>
    let vcs := validateAndCleanChunks pcs files
    some { chunks := vcs,
           chunkingStrategy := if strat = "" then "AI-based intelligent chunking" else strat,
           totalFiles := files.length,
           chunkCount := vcs.length,
           estimatedProcessingTime := if est = "" then "Unknown" else est }

/-- Model of `createSingleChunk`. -/
def createSingleChunk (files : List String) : ChunkingData :=
  { chunks := [{ id := "single_chunk",
                 name := "Complete Repository",
                 description := "All repository files in a single chunk",
                 files := files,
                 priority := "high",
                 dependencies := [],
                 chunk_type := "mixed" }],
    chunkingStrategy := "Single chunk (repository too small for chunking)",
    totalFiles := files.length,
    chunkCount := 1,
    estimatedProcessingTime := "30-60 seconds" }

/-- Model of `chunkRepository` on an extracted file list: single-chunk
bypass, then the content-aware path, then the deterministic fallback
(both on `success: false` and on a thrown error). -/
def chunkRepository (cfg : ChunkingConfig) (files : List String) (ai : AiChunkResponse) :
    ChunkingData :=
  if files.length ≤ cfg.maxChunkSize then createSingleChunk files
  else
    match createIntelligentChunks files ai with
    | some d => d
    | none => createFallbackChunks cfg files

/-! ## Record payloads (the structured semantic fields) -/

/-- A dependency edge of a `Record` (`from`/`to` are Lean keywords, so the
JS fields `from` and `to` are named `fromComponent`/`toComponent`). -/
structure Dependency where
  fromComponent : String
  toComponent : String
  depType : String
  strength : String
deriving DecidableEq

/-- A component entry of a `Record`; `chunks` is the originating-unit id
list attached by the merge. -/
structure Component where
  name : String
  cType : String
  technologies : List String
  description : String
  chunks : List String
deriving DecidableEq

/-- The `file_structure_analysis` sub-object of a `Record`. -/
structure FileStructure where
  main_directories : List String
  configuration_files : List String
  test_structure : String
  documentation_presence : String
deriving DecidableEq

/-- Structured `Record` produced by the work-unit analyzer for one chunk
(the shape consumed by `ResultsAggregator`'s rule-based merge). -/
structure AnalysisRecord where
  architecture_pattern : String
  tech_stack : List String
  key_components : List Component
  insights : List String
  dependencies : List Dependency
  file_structure_analysis : FileStructure
  scalability_notes : String
  security_considerations : String
deriving DecidableEq

/-- The `chunk_analysis_summary` block of an aggregated record. -/
structure Summary where
  total_chunks : Nat
  successful_chunks : Nat
  failed_chunks : Nat
  chunk_types : List (String × Nat)
  processing_time : String
deriving DecidableEq

/-- An aggregated (unified) record: a `Record` plus the summary block. -/
structure AggData where
  architecture_pattern : String
  tech_stack : List String
  key_components : List Component
  insights : List String
  dependencies : List Dependency
  file_structure_analysis : FileStructure
  scalability_notes : String
  security_considerations : String
  chunk_analysis_summary : Summary
deriving DecidableEq

/-! ## Scheduler/Executor: `ParallelAnalysisCoordinator` -/

/-- Constructor configuration of `ParallelAnalysisCoordinator` (defaults
`maxConcurrentChunks = 3`, `chunkTimeout = 120000`, `retryAttempts = 2`). -/
structure CoordConfig where
  maxConcurrentChunks : Nat
  chunkTimeout : Nat
  retryAttempts : Nat
deriving DecidableEq

/-- The fulfilled value of one successful `processChunk` call (the object
literal built at the end of `analyzeChunk`). -/
structure ChunkSuccess where
  success : Bool
  chunkId : String
  chunkIndex : Nat
  chunkName : String
  chunkType : String
  priority : String
  fileCount : Nat
  analysis : AnalysisRecord
  diagram : String
  diagramSuccess : Bool
deriving DecidableEq

/-- How one attempt of `processChunk` settles for the scheduler:
`success` is a resolve with `success: true`; `failure e` a resolve with
`success: false, error: e` (analyzer error caught inside `analyzeChunk`);
`thrown e` a rejection (the timeout race). -/
inductive AttemptOutcome where
  | success (r : ChunkSuccess)
  | failure (e : String)
  | thrown (e : String)
deriving DecidableEq

/-- `true` iff the attempt resolved with a truthy `success` flag — the
`if (result.success)` test of `processChunkWithRetry`. -/
def AttemptOutcome.isSuccess : AttemptOutcome → Bool
  | .success r => r.success
  | _ => false

/-- The error message `processChunkWithRetry` keeps from one failed
attempt (`new Error(result.error || 'Chunk processing failed')` for a
resolved unsuccessful result — also when the resolved object carries no
`error` field at all — and the thrown error's own message otherwise). -/
def attemptErrorMessage : AttemptOutcome → Option String
  | .success _ => some "Chunk processing failed"
  | .failure e => some (if e = "" then "Chunk processing failed" else e)
  | .thrown e => some e

/-- The retry loop of `processChunkWithRetry`: `remaining` is the number
of attempts still allowed, `attempt` the 1-based attempt counter fed to
the per-attempt behaviour `f`, `lastErr` the `lastError` variable (`none`
models the still-undefined initial value).  The returned `Nat` is the
number of attempts actually executed — a verification ghost; the
JavaScript function returns or throws only the second component. -/
def retryGo (f : Nat → AttemptOutcome) :
    Nat → Nat → Option String → Nat × Except (Option String) ChunkSuccess
  | 0, _, lastErr => (0, .error lastErr)
  | remaining + 1, attempt, _lastErr =>
    match f attempt with
    | .success r =>
      if r.success then (1, .ok r)
      else
        let res := retryGo f remaining (attempt + 1) (attemptErrorMessage (.success r))
        (res.1 + 1, res.2)
    | .failure e =>
      let res := retryGo f remaining (attempt + 1) (attemptErrorMessage (.failure e))
      (res.1 + 1, res.2)
    | .thrown e =>
      let res := retryGo f remaining (attempt + 1) (attemptErrorMessage (.thrown e))
      (res.1 + 1, res.2)

/-- Model of `processChunkWithRetry` for one chunk: runs up to
`maxAttempts` attempts, returns the first success or throws the last
failure reason; the first component counts the attempts executed. -/
def processChunkWithRetry (maxAttempts : Nat) (f : Nat → AttemptOutcome) :
    Nat × Except (Option String) ChunkSuccess :=
  retryGo f maxAttempts 1 none

/-- One entry of the `errors` array of the batch outcome — the object
literal `{ chunkIndex, chunkId, error }` pushed when a chunk's retry
promise rejects. -/
structure ErrorEntry where
  chunkIndex : Nat
  chunkId : String
  error : Option String
deriving DecidableEq

/-- The property names of the rejected-chunk object literal pushed into
`errors` by `processChunksInParallel` (it has exactly these three). -/
def errorEntryFields : List String := ["chunkIndex", "chunkId", "error"]

/-- The `batchResults.forEach` body: one batch's settled promises are
pushed into `results` / `errors` in submission order; `off` is the global
index of the batch's first chunk. -/
def runBatch (maxAttempts : Nat) (b : Nat → Nat → AttemptOutcome) :
    Nat → List Chunk → List ChunkSuccess × List ErrorEntry
  | _, [] => ([], [])
  | off, c :: rest =>
    let tail := runBatch maxAttempts b (off + 1) rest
    match (processChunkWithRetry maxAttempts (b off)).2 with
    | .ok r => (r :: tail.1, tail.2)
    | .error e => (tail.1, { chunkIndex := off, chunkId := c.id, error := e } :: tail.2)

/-- The outer `for` loop over concurrency batches: batch `k` starts at
global chunk index `k · maxConcurrent`; successes and errors accumulate
across batches in order. -/
def runBatches (maxAttempts : Nat) (b : Nat → Nat → AttemptOutcome) :
    Nat → List (List Chunk) → List ChunkSuccess × List ErrorEntry
  | _, [] => ([], [])
  | off, batch :: rest =>
    let here := runBatch maxAttempts b off batch
    let later := runBatches maxAttempts b (off + batch.length) rest
    (here.1 ++ later.1, here.2 ++ later.2)

/-- The batch outcome returned by `processChunksInParallel`. -/
structure BatchOutcome where
  results : List ChunkSuccess
  errors : List ErrorEntry
  duration : Nat
  success : Bool
  processedChunks : Nat
  totalChunks : Nat
deriving DecidableEq

/-- Model of `processChunksInParallel`: chunks are cut into batches of at
most `maxConcurrentChunks`, every chunk settles into exactly one of
`results`/`errors`, and the outcome is assembled from their lengths.  The
behaviour `b i k` gives how attempt `k` of the chunk with global index
`i` settles; `d` is the measured wall-clock duration, which the model
takes as a parameter. -/
def processChunksInParallel (cfg : CoordConfig) (b : Nat → Nat → AttemptOutcome)
    (d : Nat) (chunks : List Chunk) : BatchOutcome :=
  let pair := runBatches cfg.retryAttempts b 0 (slicePages cfg.maxConcurrentChunks chunks)
  { results := pair.1,
    errors := pair.2,
    duration := d,
    success := decide (0 < pair.1.length),
    processedChunks := pair.1.length,
    totalChunks := chunks.length }

/-! ## Aggregator: `ResultsAggregator` -/

/-- First-occurrence deduplication — the effect of `Array.from(new Set(l))`
(JS `Set` iterates in insertion order). -/
def dedupFirst (l : List String) : List String :=
  l.foldl (fun acc p => if acc.contains p then acc else acc ++ [p]) []

/-- One step of building `patternCounts`: bump an existing key in place or
append a fresh key with count 1 (JS object property update / insertion). -/
def bumpCount (m : List (String × Nat)) (p : String) : List (String × Nat) :=
  if m.any (fun e => e.1 == p) then
    m.map (fun e => if e.1 == p then (e.1, e.2 + 1) else e)
  else m ++ [(p, 1)]

/-- The `patternCounts` object: entries in first-occurrence order. -/
def patternCounts (ps : List String) : List (String × Nat) :=
  ps.foldl bumpCount []

/-- The `reduce((a, b) => a[1] > b[1] ? a : b)` step: on ties (`>` false)
the accumulator is replaced by the later entry. -/
def pickTop : (String × Nat) → List (String × Nat) → (String × Nat)
  | a, [] => a
  | a, b :: rest => pickTop (if b.2 < a.2 then a else b) rest

/-- The `patterns` array of `determineArchitecturePattern`: the non-empty
(truthy) architecture labels of the succeeded records, in order. -/
def patternsOf (results : List ChunkSuccess) : List String :=
  (results.map (fun r => r.analysis.architecture_pattern)).filter (fun s => s ≠ "")

/-- Index of the first occurrence of `a` in `l` (`l.length` when `a` is
absent) — used to state first-occurrence order. -/
def posIn (l : List String) (a : String) : Nat :=
  match l with
  | [] => 0
  | x :: rest => if x = a then 0 else posIn rest a + 1

/-- Model of `determineArchitecturePattern`: most common non-empty
pattern, reduced over the insertion-ordered count entries. -/
def determineArchitecturePattern (results : List ChunkSuccess) : String :=
  let ps := patternsOf results
  if ps.isEmpty then "Unknown"
  else
    match patternCounts ps with
    | [] => "Unknown"
    | e :: es => (pickTop e es).1

/-- Model of `consolidateTechStack`: set union in insertion order. -/
def consolidateTechStack (results : List ChunkSuccess) : List String :=
  dedupFirst (results.flatMap (fun r => r.analysis.tech_stack))

/-- The merge key of `mergeComponents`: the template literal
`` `${comp.name}-${comp.type}` ``. -/
def componentKey (c : Component) : String := c.name ++ "-" ++ c.cType

/-- Merging one component into the insertion-ordered `componentMap`:
an existing entry under the same key unions technologies and originating
chunk ids and concatenates descriptions; a fresh key is appended with the
originating chunk id recorded. -/
def mergeOneComponent (m : List (String × Component)) (cid : String) (c : Component) :
    List (String × Component) :=
  let key := componentKey c
  if m.any (fun e => e.1 == key) then
    m.map (fun e =>
      if e.1 == key then
        (e.1, { e.2 with
                technologies := dedupFirst (e.2.technologies ++ c.technologies),
                chunks := dedupFirst (e.2.chunks ++ [cid]),
                description := e.2.description ++ "; " ++ c.description })
      else e)
  else m ++ [(key, { c with chunks := [cid] })]

/-- Model of `mergeComponents`: fold all components of all succeeded
results through the keyed map, then take the values in insertion order. -/
def mergeComponents (results : List ChunkSuccess) : List Component :=
  (results.foldl
    (fun m r => r.analysis.key_components.foldl (fun m c => mergeOneComponent m r.chunkId c) m)
    []).map (fun e => e.2)

/-- Model of `consolidateInsights`: set union in insertion order. -/
def consolidateInsights (results : List ChunkSuccess) : List String :=
  dedupFirst (results.flatMap (fun r => r.analysis.insights))

/-- Model of `mergeDependencies`: plain concatenation of all edges, each
spread-copied with `strength` forced to `'medium'`. -/
def mergeDependencies (results : List ChunkSuccess) : List Dependency :=
  results.foldl
    (fun acc r => acc ++ r.analysis.dependencies.map (fun dep => { dep with strength := "medium" }))
    []

/-- Model of `consolidateFileStructure`: unions for directories and config
files; for the two scalar notes each non-empty value overwrites the
previous one, so the last non-empty value wins. -/
def consolidateFileStructure (results : List ChunkSuccess) : FileStructure :=
  let dirs := dedupFirst (results.flatMap (fun r => r.analysis.file_structure_analysis.main_directories))
  let cfgs := dedupFirst (results.flatMap (fun r => r.analysis.file_structure_analysis.configuration_files))
  let ts := results.foldl
    (fun acc r =>
      if r.analysis.file_structure_analysis.test_structure = "" then acc
      else r.analysis.file_structure_analysis.test_structure) ""
  let dp := results.foldl
    (fun acc r =>
      if r.analysis.file_structure_analysis.documentation_presence = "" then acc
      else r.analysis.file_structure_analysis.documentation_presence) ""
  { main_directories := dirs,
    configuration_files := cfgs,
    test_structure := if ts = "" then "Unknown" else ts,
    documentation_presence := if dp = "" then "Unknown" else dp }

/-- Model of `consolidateScalabilityNotes`. -/
def consolidateScalabilityNotes (results : List ChunkSuccess) : String :=
  let notes := String.intercalate "; "
    ((results.map (fun r => r.analysis.scalability_notes)).filter (fun s => s ≠ ""))
  if notes = "" then "No scalability analysis available" else notes

/-- Model of `consolidateSecurityConsiderations`. -/
def consolidateSecurityConsiderations (results : List ChunkSuccess) : String :=
  let cs := String.intercalate "; "
    ((results.map (fun r => r.analysis.security_considerations)).filter (fun s => s ≠ ""))
  if cs = "" then "No security analysis available" else cs

/-- Model of `analyzeChunkTypes`: insertion-ordered histogram of the
`chunkType` strings of the succeeded results (falsy type → `'unknown'`). -/
def analyzeChunkTypes (results : List ChunkSuccess) : List (String × Nat) :=
  results.foldl (fun m r => bumpCount m (if r.chunkType = "" then "unknown" else r.chunkType)) []

/-- The `${Math.floor(d/60000)} minutes ${Math.floor((d%60000)/1000)} seconds`
template of the aggregator. -/
def processingTimeString (d : Nat) : String :=
  let m := d / 60000
  let s := (d % 60000) / 1000
  s!"{m} minutes {s} seconds"

/-- The `metadata` block of an aggregation result. -/
structure AggMetadata where
  aggregationMethod : String
  successfulChunks : Nat
  totalChunks : Nat
  processingTime : Nat
deriving DecidableEq

/-- A `success: true` aggregation result (every path of `aggregateResults`
that returns does so with `success: true`). -/
structure AggregationResult where
  data : AggData
  raw : String
  metadata : AggMetadata
deriving DecidableEq

/-- Number of attempted units as the aggregator computes it everywhere:
`chunkResults.results.length + chunkResults.errors.length`. -/
def totalOf (cr : BatchOutcome) : Nat := cr.results.length + cr.errors.length

/-- Model of `createRuleBasedAggregation` (the deterministic merge). -/
def createRuleBasedAggregation (succ : List ChunkSuccess) (cr : BatchOutcome) :
    AggregationResult :=
  { data :=
      { architecture_pattern := determineArchitecturePattern succ,
        tech_stack := consolidateTechStack succ,
        key_components := mergeComponents succ,
        insights := consolidateInsights succ,
        dependencies := mergeDependencies succ,
        file_structure_analysis := consolidateFileStructure succ,
        scalability_notes := consolidateScalabilityNotes succ,
        security_considerations := consolidateSecurityConsiderations succ,
        chunk_analysis_summary :=
          { total_chunks := totalOf cr,
            successful_chunks := succ.length,
            failed_chunks := cr.errors.length,
            chunk_types := analyzeChunkTypes succ,
            processing_time := processingTimeString cr.duration } },
    raw := "Rule-based aggregation used",
    metadata :=
      { aggregationMethod := "Rule-based fallback aggregation",
        successfulChunks := succ.length,
        totalChunks := totalOf cr,
        processingTime := cr.duration } }

/-- Model of `createFallbackAggregation` (zero succeeded units). -/
def createFallbackAggregation (cr : BatchOutcome) : AggregationResult :=
  { data :=
      { architecture_pattern := "Unknown",
        tech_stack := [],
        key_components := [],
        insights := ["Analysis failed - no successful chunks to aggregate"],
        dependencies := [],
        file_structure_analysis :=
          { main_directories := [],
            configuration_files := [],
            test_structure := "Unknown",
            documentation_presence := "Unknown" },
        scalability_notes := "Analysis incomplete",
        security_considerations := "Analysis incomplete",
        chunk_analysis_summary :=
          { total_chunks := totalOf cr,
            successful_chunks := 0,
            failed_chunks := totalOf cr,
            chunk_types := [],
            processing_time := processingTimeString cr.duration } },
    raw := "Fallback aggregation used",
    metadata :=
      { aggregationMethod := "Fallback aggregation",
        successfulChunks := 0,
        totalChunks := totalOf cr,
        processingTime := cr.duration } }

/-- Model of `createIntelligentAggregation`: on a parsed synthesis
response the parsed object itself becomes `data` — its summary block
included, untouched — and only `metadata` gets the batch counts; `none`
models an invoke/parse failure (`success: false`). -/
def createIntelligentAggregation (aiAgg : Option AggData) (succ : List ChunkSuccess)
    (cr : BatchOutcome) : Option AggregationResult :=
  match aiAgg with
  | none => none
  | some d =>
    some { data := d,
           raw := "AI aggregation response",
           metadata :=
             { aggregationMethod := "AI-based intelligent aggregation",
               successfulChunks := succ.length,
               totalChunks := totalOf cr,
               processingTime := cr.duration } }

/-- Model of `aggregateResults`: zero succeeded → degenerate fallback;
otherwise the synthesis-capability merge, falling back to the rule-based
merge when that fails. -/
def aggregateResults (aiAgg : Option AggData) (cr : BatchOutcome) : AggregationResult :=
  let succ := cr.results.filter (fun r => r.success)
  if succ.isEmpty then createFallbackAggregation cr
  else
    match createIntelligentAggregation aiAgg succ cr with
    | some r => r
    | none => createRuleBasedAggregation succ cr

/-! ## Orchestrator: `AgentOrchestrator` -/

/-- Model of `countFilesInRepository`: lines of the tree text starting
with `"- "`. -/
def countFilesInRepository (repoTree : String) : Nat :=
  ((treeLines repoTree).filter (fun l => charsStartWith "- ".data l)).length

/-- The orchestrator configuration fields the path decision reads. -/
structure OrchConfig where
  enableChunking : Bool
  chunkingThreshold : Nat
deriving DecidableEq

/-- The `data` object of an orchestrator response
(`combineResults` / `combineChunkedResults` output shape);
`chunkAnalysisSummary` is present only on the chunked path. -/
structure CombinedData where
  architecture : String
  techStack : List String
  insights : List String
  keyComponents : List Component
  dependencies : List Dependency
  fileStructureAnalysis : FileStructure
  scalabilityNotes : String
  securityConsiderations : String
  mermaid : String
  chunkAnalysisSummary : Option Summary
deriving DecidableEq

/-- The response metadata fields relevant to the path indicator:
`analysisMethod` is `'single-chunk'` or `'chunked'` on the two success
paths and absent (`none`) on the fallback/error responses. -/
structure RespMetadata where
  analysisMethod : Option String
  fallbackUsed : Bool
  fallbackDiagramUsed : Bool
deriving DecidableEq

/-- An orchestrator response. -/
structure OrchResponse where
  success : Bool
  data : CombinedData
  metadata : RespMetadata
deriving DecidableEq

/-- Which top-level branch `analyzeRepository` took — the ghost
observation for bypass correctness. -/
inductive PathTaken where
  | single
  | chunked
deriving DecidableEq

/-- Model of `combineChunkedResults`: field-for-field copy of the
aggregated data (with `||` defaults), the unified diagram, and the
aggregated summary passed through as `chunkAnalysisSummary`. -/
def combineChunkedResults (aggregatedData : AggData) (mermaidDiagram : String) : CombinedData :=
  { architecture := if aggregatedData.architecture_pattern = "" then "Unknown"
                    else aggregatedData.architecture_pattern,
    techStack := aggregatedData.tech_stack,
    insights := aggregatedData.insights,
    keyComponents := aggregatedData.key_components,
    dependencies := aggregatedData.dependencies,
    fileStructureAnalysis := aggregatedData.file_structure_analysis,
    scalabilityNotes := aggregatedData.scalability_notes,
    securityConsiderations := aggregatedData.security_considerations,
    mermaid := mermaidDiagram,
    chunkAnalysisSummary := some aggregatedData.chunk_analysis_summary }

/-- Model of `combineResults` on the single-chunk path. -/
def combineResults (analysisData : AnalysisRecord) (diagram : String) : CombinedData :=
  { architecture := if analysisData.architecture_pattern = "" then "Unknown"
                    else analysisData.architecture_pattern,
    techStack := analysisData.tech_stack,
    insights := analysisData.insights,
    keyComponents := analysisData.key_components,
    dependencies := analysisData.dependencies,
    fileStructureAnalysis := analysisData.file_structure_analysis,
    scalabilityNotes := analysisData.scalability_notes,
    securityConsiderations := analysisData.security_considerations,
    mermaid := diagram,
    chunkAnalysisSummary := none }

/-- Outcomes of the external collaborators one `analyzeRepository` call
awaits, gathered as explicit parameters of the model. -/
structure OrchDeps where
  /-- The single-path analyzer outcome: `none` is `success: false`. -/
  singleAnalysis : Option AnalysisRecord
  /-- The single-path diagram outcome: `none` is `success: false`. -/
  singleDiagram : Option String
  /-- The chunking-assist response, as parsed. -/
  aiChunks : AiChunkResponse
  /-- How attempt `k` of the chunk with global index `i` settles. -/
  behaviour : Nat → Nat → AttemptOutcome
  /-- Wall-clock duration of the parallel phase. -/
  parallelDuration : Nat
  /-- The synthesis-capability merge response, as parsed. -/
  aiAgg : Option AggData
  /-- The unified-diagram builder output (empty on failure). -/
  unifiedDiagram : String
  /-- The fallback data `createFallbackResponse` synthesizes. -/
  fallbackData : CombinedData
  /-- The deterministic placeholder diagram `createFallbackDiagram` makes. -/
  fallbackDiagram : String

/-- Model of `createFallbackResponse`: a `success: true` response whose
metadata carries `fallbackUsed` and no `analysisMethod`. -/
def createFallbackResponse (deps : OrchDeps) : OrchResponse :=
  { success := true,
    data := deps.fallbackData,
    metadata := { analysisMethod := none, fallbackUsed := true, fallbackDiagramUsed := false } }

/-- Model of `analyzeWithoutChunking`: analyzer, then diagram builder,
with the fallback responses of the source on either failure; the success
response's metadata records `analysisMethod: 'single-chunk'`. -/
def analyzeWithoutChunking (deps : OrchDeps) : OrchResponse :=
  match deps.singleAnalysis with
  | none => createFallbackResponse deps
  | some ar =>
    match deps.singleDiagram with
    | none =>
      { success := true,
        data := { combineResults ar deps.fallbackDiagram with
                  insights := ar.insights ++
                    ["Diagram created using fallback method due to diagram builder failure"] },
        metadata := { analysisMethod := none, fallbackUsed := false, fallbackDiagramUsed := true } }
    | some dg =>
      { success := true,
        data := combineResults ar dg,
        metadata := { analysisMethod := some "single-chunk", fallbackUsed := false,
                      fallbackDiagramUsed := false } }

/-- Model of `analyzeWithChunking`: Decomposer → Scheduler → Aggregator →
unified diagram, with the source's fallback when the parallel phase
yields no success; the success response's metadata records
`analysisMethod: 'chunked'`. -/
def analyzeWithChunking (ccfg : ChunkingConfig) (pcfg : CoordConfig) (files : List String)
    (deps : OrchDeps) : OrchResponse :=
  let chunkingResult := chunkRepository ccfg files deps.aiChunks
  let parallelResult :=
    processChunksInParallel pcfg deps.behaviour deps.parallelDuration chunkingResult.chunks
  if !parallelResult.success then createFallbackResponse deps
  else
    let aggregationResult := aggregateResults deps.aiAgg parallelResult
    { success := true,
      data := combineChunkedResults aggregationResult.data deps.unifiedDiagram,
      metadata := { analysisMethod := some "chunked", fallbackUsed := false,
                    fallbackDiagramUsed := false } }

/-- Model of `analyzeRepository`: counts the items of the tree listing and
branches on `fileCount > chunkingThreshold && enableChunking`.  The first
component records which branch ran. -/
def analyzeRepository (ocfg : OrchConfig) (ccfg : ChunkingConfig) (pcfg : CoordConfig)
    (repoTree : String) (deps : OrchDeps) : PathTaken × OrchResponse :=
  let fileCount := countFilesInRepository repoTree
  if decide (ocfg.chunkingThreshold < fileCount) && ocfg.enableChunking then
    (.chunked, analyzeWithChunking ccfg pcfg (extractFilesFromTree repoTree) deps)
  else
    (.single, analyzeWithoutChunking deps)

/-! ## Concrete inputs used by witnesses and counterexamples -/

/-- An empty `file_structure_analysis` payload. -/
def emptyFS : FileStructure :=
  { main_directories := [], configuration_files := [],
    test_structure := "", documentation_presence := "" }

/-- A record carrying only an architecture label. -/
def mkRecord (arch : String) : AnalysisRecord :=
  { architecture_pattern := arch, tech_stack := [], key_components := [], insights := [],
    dependencies := [], file_structure_analysis := emptyFS,
    scalability_notes := "", security_considerations := "" }

/-- A minimal succeeded unit result. -/
def mkSuccess (cid : String) (i : Nat) (arch : String) : ChunkSuccess :=
  { success := true, chunkId := cid, chunkIndex := i, chunkName := "", chunkType := "",
    priority := "medium", fileCount := 0, analysis := mkRecord arch,
    diagram := "", diagramSuccess := true }

/-- A minimal work unit with a given id. -/
def mkChunk (cid : String) : Chunk :=
  { id := cid, name := "", description := "", files := [],
    priority := "medium", dependencies := [], chunk_type := "mixed" }

/-- Scenario B input: one `Frontend` file and 799 `Other` files, 800 items
in total. -/
def files800 : List String := "a.html" :: (List.range 799).map (fun i => s!"b{i}.z")

/-- Scenario B configuration: `maxUnitSize 200`, `maxUnitCount 10`. -/
def cfg800 : ChunkingConfig := { maxChunkSize := 200, maxChunks := 10, minChunkSize := 50 }

/-- Item list for the content-aware coverage counterexample. -/
def cexFilesC1 : List String := ["a", "b"]

/-- An assist proposal that silently drops item `"b"`: well-formed, every
listed file exists, so the post-check keeps it unchanged. -/
def cexProposalC1 : List ProposedChunk :=
  [{ id := "p1", name := "part", description := "d", files := some ["a"],
     priority := "high", dependencies := [], chunk_type := "mixed" }]

/-- A small chunking configuration that sends the two-item list down the
content-aware path. -/
def cexCfgC1 : ChunkingConfig := { maxChunkSize := 1, maxChunks := 10, minChunkSize := 1 }

/-- Scenario C work units `chunk_1 … chunk_5`. -/
def chunks5 : List Chunk := (List.range 5).map (fun i => (let i1 := i + 1; mkChunk s!"chunk_{i1}"))

/-- Scenario C behaviour: unit with global index 2 (unit #3) fails every
attempt with message `"boom"`; all other units succeed immediately. -/
def behaviourC : Nat → Nat → AttemptOutcome := fun i _ =>
  if i = 2 then .failure "boom" else .success (mkSuccess s!"s{i}" i "P")

/-- Scenario C scheduler policy: `maxConcurrent = 3`, `maxAttempts = 2`. -/
def cfgC : CoordConfig := { maxConcurrentChunks := 3, chunkTimeout := 120000, retryAttempts := 2 }

/-- A batch outcome with two succeeded units and one failed unit. -/
def batch3 : BatchOutcome :=
  { results := [mkSuccess "u1" 0 "A", mkSuccess "u2" 1 "A"],
    errors := [{ chunkIndex := 2, chunkId := "chunk_3", error := some "e" }],
    duration := 0, success := true, processedChunks := 2, totalChunks := 3 }

/-- A synthesis-capability response whose self-reported summary block is
wrong: it claims 99 total units. -/
def aiBogus : AggData :=
  { architecture_pattern := "MVC", tech_stack := [], key_components := [], insights := [],
    dependencies := [], file_structure_analysis := emptyFS,
    scalability_notes := "", security_considerations := "",
    chunk_analysis_summary :=
      { total_chunks := 99, successful_chunks := 99, failed_chunks := 0,
        chunk_types := [], processing_time := "" } }

/-- Scenario D batch outcome: six attempted units, none succeeded. -/
def batch6 : BatchOutcome :=
  { results := [],
    errors := (List.range 6).map (fun i => (let i1 := i + 1;
      { chunkIndex := i, chunkId := s!"chunk_{i1}", error := some "fail" : ErrorEntry })),
    duration := 61000, success := false, processedChunks := 0, totalChunks := 6 }

/-- Two succeeded records whose labels `"A"` and `"B"` are tied at one
occurrence each, `"A"` occurring first. -/
def tiedResults : List ChunkSuccess := [mkSuccess "u1" 0 "A", mkSuccess "u2" 1 "B"]

/-- Component `name: "a-b", type: "c"`. -/
def compAB_C : Component :=
  { name := "a-b", cType := "c", technologies := ["t1"], description := "d1", chunks := [] }

/-- Component `name: "a", type: "b-c"` — a different `(name, type)` pair
with the same concatenated key. -/
def compA_BC : Component :=
  { name := "a", cType := "b-c", technologies := ["t2"], description := "d2", chunks := [] }

/-- Two succeeded results carrying the two colliding components. -/
def collidingResults : List ChunkSuccess :=
  [{ mkSuccess "u1" 0 "X" with analysis := { mkRecord "X" with key_components := [compAB_C] } },
   { mkSuccess "u2" 1 "X" with analysis := { mkRecord "X" with key_components := [compA_BC] } }]

/-- Two records, each with one dependency edge of non-`medium` strength. -/
def depResults : List ChunkSuccess :=
  [{ mkSuccess "u1" 0 "X" with analysis := { mkRecord "X" with dependencies :=
      [{ fromComponent := "A", toComponent := "B", depType := "uses", strength := "strong" }] } },
   { mkSuccess "u2" 1 "X" with analysis := { mkRecord "X" with dependencies :=
      [{ fromComponent := "A", toComponent := "B", depType := "uses", strength := "strong" }] } }]

/-- A repository tree listing with 45 items. -/
def tree45 : String :=
  String.intercalate "\n" ((List.range 45).map (fun i => s!"- f{i}.ts"))

/-- Orchestrator configuration of Scenario A (`chunkingThreshold 500`). -/
def ocfgA : OrchConfig := { enableChunking := true, chunkingThreshold := 500 }

/-- An empty combined-data payload for the fallback response. -/
def emptyCombined : CombinedData :=
  { architecture := "Unknown", techStack := [], insights := [], keyComponents := [],
    dependencies := [], fileStructureAnalysis := emptyFS, scalabilityNotes := "",
    securityConsiderations := "", mermaid := "", chunkAnalysisSummary := none }

/-- Collaborator outcomes of Scenario A: the single-path analyzer and
diagram builder both succeed. -/
def depsA : OrchDeps :=
  { singleAnalysis := some (mkRecord "MVC"),
    singleDiagram := some "graph TD",
    aiChunks := .failed,
    behaviour := fun _ _ => .failure "unused",
    parallelDuration := 0,
    aiAgg := none,
    unifiedDiagram := "",
    fallbackData := emptyCombined,
    fallbackDiagram := "" }

/-! ## General lemmas -/

/-- Folding `acc ++ f r` over a list is appending the flat-map. -/
theorem foldl_append_eq_flatMap {α β : Type} (f : α → List β) :
    ∀ (rs : List α) (acc : List β),
      rs.foldl (fun a r => a ++ f r) acc = acc ++ rs.flatMap f
  | [], acc => by simp
  | r :: rs, acc => by
    simp only [List.foldl_cons, List.flatMap_cons]
    rw [foldl_append_eq_flatMap f rs (acc ++ f r), List.append_assoc]

/-! ## C10: dependency-edge merge -/

/-- C10.  In the deterministic dependency-edge merge every output edge has
its `strength` overwritten with `"medium"`; all other fields pass through
unchanged, and edges are the plain concatenation of all input edge lists,
duplicates preserved — exactly the flat-map of the per-record spread-copy. -/
theorem C10_dependency_strength (rs : List ChunkSuccess) :
    mergeDependencies rs =
      rs.flatMap (fun r => r.analysis.dependencies.map (fun d => { d with strength := "medium" })) ∧
    ∀ d ∈ mergeDependencies rs, d.strength = "medium" := by
  have h := foldl_append_eq_flatMap
    (fun r : ChunkSuccess =>
      r.analysis.dependencies.map (fun d => { d with strength := "medium" })) rs []
  refine ⟨by simpa [mergeDependencies] using h, ?_⟩
  intro d hd
  rw [show mergeDependencies rs = _ from by simpa [mergeDependencies] using h] at hd
  simp only [List.mem_flatMap, List.mem_map] at hd
  obtain ⟨r, _, d', _, rfl⟩ := hd
  rfl

/-! ## C9: component merge key -/

/-- C9.  The deterministic component merge keys records by the string
`name + "-" + type`: the two components `("a-b", "c")` and `("a", "b-c")`
have distinct `(name, type)` pairs but the same key, and merging the two
records carrying them produces a single merged component entry. -/
theorem C9_componentKey :
    componentKey compAB_C = componentKey compA_BC ∧
    ¬(compAB_C.name = compA_BC.name ∧ compAB_C.cType = compA_BC.cType) ∧
    mergeComponents collidingResults =
      [{ name := "a-b", cType := "c", technologies := ["t1", "t2"],
         description := "d1; d2", chunks := ["u1", "u2"] }] := by
  refine ⟨by decide, by decide, by decide⟩

/-! ## C5: degenerate aggregation on zero successes -/

/-- C5.  A batch outcome with zero succeeded unit results is aggregated
(returned, not thrown) into the degenerate record: its summary reports
`total = N`, `succeeded = 0`, `failed = N` for `N` the attempted count,
and its narrative fields state that no successful unit data was
available. -/
theorem C5_degenerate (cr : BatchOutcome) (ai : Option AggData)
    (h : cr.results.filter (fun r => r.success) = []) :
    aggregateResults ai cr = createFallbackAggregation cr ∧
    (aggregateResults ai cr).data.chunk_analysis_summary.total_chunks = totalOf cr ∧
    (aggregateResults ai cr).data.chunk_analysis_summary.successful_chunks = 0 ∧
    (aggregateResults ai cr).data.chunk_analysis_summary.failed_chunks = totalOf cr ∧
    (aggregateResults ai cr).data.insights =
      ["Analysis failed - no successful chunks to aggregate"] ∧
    (aggregateResults ai cr).data.scalability_notes = "Analysis incomplete" ∧
    (aggregateResults ai cr).data.security_considerations = "Analysis incomplete" := by
  have hagg : aggregateResults ai cr = createFallbackAggregation cr := by
    unfold aggregateResults
    rw [h]
    rfl
  exact ⟨hagg, by rw [hagg]; rfl, by rw [hagg]; rfl, by rw [hagg]; rfl, by rw [hagg]; rfl,
    by rw [hagg]; rfl, by rw [hagg]; rfl⟩

/-- Witness for C5 at Scenario D: six attempted units, none succeeded;
the degenerate record reports 6/0/6. -/
theorem C5_degenerate_witness :
    batch6.results.filter (fun r => r.success) = [] ∧
    totalOf batch6 = 6 ∧
    ((aggregateResults none batch6).data.chunk_analysis_summary.total_chunks = totalOf batch6 ∧
     (aggregateResults none batch6).data.chunk_analysis_summary.successful_chunks = 0 ∧
     (aggregateResults none batch6).data.chunk_analysis_summary.failed_chunks = totalOf batch6 ∧
     (aggregateResults none batch6).data.insights =
       ["Analysis failed - no successful chunks to aggregate"]) := by
  refine ⟨by decide, by decide, ?_⟩
  have h := C5_degenerate batch6 none (by decide)
  exact ⟨h.2.1, h.2.2.1, h.2.2.2.1, h.2.2.2.2.1⟩

/-! ## C2: provenance of the summary block -/

/-- C2 (amended).  The summary block is computed directly from the batch
outcome's counts on the rule-based merge path and on the zero-success
fallback path; on the content-aware (synthesis-capability) path the
returned record's summary block is the synthesis output's own summary,
passed through untouched — only the result's `metadata` carries the exact
batch counts there. -/
theorem C2_summary_amended (succ : List ChunkSuccess) (cr : BatchOutcome) (d : AggData) :
    ((createRuleBasedAggregation succ cr).data.chunk_analysis_summary.total_chunks = totalOf cr ∧
     (createRuleBasedAggregation succ cr).data.chunk_analysis_summary.successful_chunks =
       succ.length ∧
     (createRuleBasedAggregation succ cr).data.chunk_analysis_summary.failed_chunks =
       cr.errors.length) ∧
    ((createFallbackAggregation cr).data.chunk_analysis_summary.total_chunks = totalOf cr ∧
     (createFallbackAggregation cr).data.chunk_analysis_summary.successful_chunks = 0 ∧
     (createFallbackAggregation cr).data.chunk_analysis_summary.failed_chunks = totalOf cr) ∧
    ((createIntelligentAggregation (some d) succ cr).map
        (fun r => r.data.chunk_analysis_summary) = some d.chunk_analysis_summary ∧
     (createIntelligentAggregation (some d) succ cr).map
        (fun r => r.metadata.successfulChunks) = some succ.length ∧
     (createIntelligentAggregation (some d) succ cr).map
        (fun r => r.metadata.totalChunks) = some (totalOf cr)) :=
  ⟨⟨rfl, rfl, rfl⟩, ⟨rfl, rfl, rfl⟩, ⟨rfl, rfl, rfl⟩⟩

/-- Counterexample for C2 as stated: a synthesis response claiming 99
total units is passed through as the unified record's summary on the
content-aware path of a 3-unit batch (2 succeeded, 1 failed), so the
summary counts do not equal the attempted counts on that path. -/
theorem C2_summary_cex :
    (combineChunkedResults (aggregateResults (some aiBogus) batch3).data "").chunkAnalysisSummary =
      some aiBogus.chunk_analysis_summary ∧
    (aggregateResults (some aiBogus) batch3).data.chunk_analysis_summary.total_chunks = 99 ∧
    batch3.results.length + batch3.errors.length = 3 ∧ (99 : Nat) ≠ 3 := by
  refine ⟨by decide, by decide, by decide, by decide⟩

/-! ## C6: bypass correctness -/

/-- C6.  Whenever the item count of the listing is at most
`chunkingThreshold`, `analyzeRepository` takes the single-unit branch —
the Decomposer/Scheduler/Aggregator pipeline is never invoked and the
response is exactly the `analyzeWithoutChunking` response — and on the
normal single-unit path (analyzer and diagram builder both succeed) the
response's path indicator `metadata.analysisMethod` is the single-unit
marker `"single-chunk"`, never `"chunked"`. -/
theorem C6_bypass (ocfg : OrchConfig) (ccfg : ChunkingConfig) (pcfg : CoordConfig)
    (tree : String) (deps : OrchDeps)
    (h : countFilesInRepository tree ≤ ocfg.chunkingThreshold) :
    (analyzeRepository ocfg ccfg pcfg tree deps).1 = .single ∧
    (analyzeRepository ocfg ccfg pcfg tree deps).2 = analyzeWithoutChunking deps ∧
    (∀ ar dg, deps.singleAnalysis = some ar → deps.singleDiagram = some dg →
      (analyzeRepository ocfg ccfg pcfg tree deps).2.metadata.analysisMethod =
        some "single-chunk" ∧
      (analyzeRepository ocfg ccfg pcfg tree deps).2.metadata.analysisMethod ≠
        some "chunked") := by
  have hcond : decide (ocfg.chunkingThreshold < countFilesInRepository tree) = false := by
    simpa using Nat.not_lt.mpr h
  have hbr : analyzeRepository ocfg ccfg pcfg tree deps =
      (.single, analyzeWithoutChunking deps) := by
    unfold analyzeRepository
    simp [hcond]
  refine ⟨by rw [hbr], by rw [hbr], ?_⟩
  intro ar dg har hdg
  rw [hbr]
  simp [analyzeWithoutChunking, har, hdg]

set_option maxRecDepth 40000 in
/-- Witness for C6 at Scenario A: 45 items against threshold 500 take the
single-unit path with indicator `"single-chunk"`. -/
theorem C6_bypass_witness :
    countFilesInRepository tree45 = 45 ∧
    countFilesInRepository tree45 ≤ ocfgA.chunkingThreshold ∧
    ((analyzeRepository ocfgA cfg800 cfgC tree45 depsA).1 = .single ∧
     (analyzeRepository ocfgA cfg800 cfgC tree45 depsA).2 = analyzeWithoutChunking depsA ∧
     (analyzeRepository ocfgA cfg800 cfgC tree45 depsA).2.metadata.analysisMethod =
       some "single-chunk") := by
  have h := C6_bypass ocfgA cfg800 cfgC tree45 depsA (by decide)
  exact ⟨by decide, by decide, h.1, h.2.1, (h.2.2 (mkRecord "MVC") "graph TD" rfl rfl).1⟩

/-! ## Scheduler lemmas -/

/-- Slicing a list into pages of size `n ≥ 1` loses and reorders
nothing: the concatenation of the pages is the original list. -/
theorem slicePagesAux_flatten {α : Type} (n : Nat) (hn : 1 ≤ n) :
    ∀ (fuel : Nat) (l : List α), l.length ≤ fuel → (slicePagesAux n fuel l).flatten = l := by
  intro fuel
  induction fuel with
  | zero =>
    intro l hl
    have : l = [] := List.length_eq_zero.mp (Nat.le_zero.mp hl)
    subst this
    rfl
  | succ fuel ih =>
    intro l hl
    match l with
    | [] => rfl
    | a :: rest =>
      have hdrop : ((a :: rest).drop n).length ≤ fuel := by
        rw [List.length_drop]
        have : (a :: rest).length ≤ fuel + 1 := hl
        have hlen : 0 < (a :: rest).length := by simp
        omega
      calc (slicePagesAux n (fuel + 1) (a :: rest)).flatten
          = (a :: rest).take n ++ (slicePagesAux n fuel ((a :: rest).drop n)).flatten := by
            rfl
        _ = (a :: rest).take n ++ (a :: rest).drop n := by rw [ih _ hdrop]
        _ = a :: rest := List.take_append_drop n (a :: rest)

/-- `slicePages` version of the page-concatenation lemma. -/
theorem slicePages_flatten {α : Type} (n : Nat) (hn : 1 ≤ n) (l : List α) :
    (slicePages n l).flatten = l :=
  slicePagesAux_flatten n hn l.length l (Nat.le_refl _)

/-- Every page produced by the slicer has at most `n` elements. -/
theorem length_le_of_mem_slicePagesAux {α : Type} (n : Nat) :
    ∀ (fuel : Nat) (l : List α) (pg : List α), pg ∈ slicePagesAux n fuel l → pg.length ≤ n := by
  intro fuel
  induction fuel with
  | zero => intro l pg hpg; simp [slicePagesAux] at hpg
  | succ fuel ih =>
    intro l pg hpg
    match l with
    | [] => simp [slicePagesAux] at hpg
    | a :: rest =>
      simp only [slicePagesAux, List.mem_cons] at hpg
      rcases hpg with h | h
      · subst h
        rw [List.length_take]
        exact Nat.min_le_left _ _
      · exact ih _ _ h

/-- Every page of `slicePages n l` has at most `n` elements. -/
theorem length_le_of_mem_slicePages {α : Type} (n : Nat) (l pg : List α)
    (h : pg ∈ slicePages n l) : pg.length ≤ n :=
  length_le_of_mem_slicePagesAux n l.length l pg h

/-- Every chunk of one batch lands in exactly one of the two output
lists, so the per-batch output sizes add up to the batch size. -/
theorem runBatch_counts (ma : Nat) (b : Nat → Nat → AttemptOutcome) :
    ∀ (off : Nat) (batch : List Chunk),
      (runBatch ma b off batch).1.length + (runBatch ma b off batch).2.length = batch.length := by
  intro off batch
  induction batch generalizing off with
  | nil => rfl
  | cons c rest ih =>
    have h := ih (off + 1)
    cases hr : (processChunkWithRetry ma (b off)).2 with
    | ok r =>
      simp only [runBatch, hr, List.length_cons]
      omega
    | error e =>
      simp only [runBatch, hr, List.length_cons]
      omega

/-- Summing the per-batch counts over all batches. -/
theorem runBatches_counts (ma : Nat) (b : Nat → Nat → AttemptOutcome) :
    ∀ (off : Nat) (bs : List (List Chunk)),
      (runBatches ma b off bs).1.length + (runBatches ma b off bs).2.length =
        (bs.map (fun x => x.length)).sum := by
  intro off bs
  induction bs generalizing off with
  | nil => rfl
  | cons batch rest ih =>
    simp only [runBatches, List.map_cons, List.sum_cons, List.length_append]
    have h1 := runBatch_counts ma b off batch
    have h2 := ih (off + batch.length)
    omega

/-! ## C3: one entry per unit -/

/-- C3.  For every work-unit list and every behaviour of the per-unit
analyze function, each unit contributes exactly one entry to either the
successful results or the errors of the batch outcome, so
`succeededCount + failedCount = totalUnits`; the reported
`processedChunks`/`totalChunks` agree with those counts. -/
theorem C3_counts (cfg : CoordConfig) (b : Nat → Nat → AttemptOutcome) (d : Nat)
    (chunks : List Chunk) (h : 1 ≤ cfg.maxConcurrentChunks) :
    (processChunksInParallel cfg b d chunks).results.length +
      (processChunksInParallel cfg b d chunks).errors.length = chunks.length ∧
    (processChunksInParallel cfg b d chunks).processedChunks =
      (processChunksInParallel cfg b d chunks).results.length ∧
    (processChunksInParallel cfg b d chunks).totalChunks = chunks.length := by
  have hsum : ((slicePages cfg.maxConcurrentChunks chunks).map (fun x => x.length)).sum =
      chunks.length := by
    rw [← List.length_flatten, slicePages_flatten cfg.maxConcurrentChunks h chunks]
  refine ⟨?_, rfl, rfl⟩
  have := runBatches_counts cfg.retryAttempts b 0 (slicePages cfg.maxConcurrentChunks chunks)
  simpa [processChunksInParallel, hsum] using this

/-- Witness for C3 at Scenario C's shape: 5 units, `maxConcurrent = 3`,
4 successes and 1 failure — the counts add up to 5. -/
theorem C3_counts_witness :
    1 ≤ cfgC.maxConcurrentChunks ∧
    (processChunksInParallel cfgC behaviourC 0 chunks5).results.length +
      (processChunksInParallel cfgC behaviourC 0 chunks5).errors.length = chunks5.length ∧
    (processChunksInParallel cfgC behaviourC 0 chunks5).results.length = 4 ∧
    (processChunksInParallel cfgC behaviourC 0 chunks5).errors.length = 1 := by
  refine ⟨by decide, (C3_counts cfgC behaviourC 0 chunks5 (by decide)).1, by decide, by decide⟩

/-! ## C4: retry bound -/

/-- A permanently failing behaviour makes the retry loop execute exactly
the allowed number of attempts and end in a rejection. -/
theorem retryGo_run_of_fail (f : Nat → AttemptOutcome) (h : ∀ k, (f k).isSuccess = false) :
    ∀ (rem att : Nat) (le : Option String),
      (retryGo f rem att le).1 = rem ∧ ∃ m, (retryGo f rem att le).2 = Except.error m := by
  intro rem
  induction rem with
  | zero => intro att le; exact ⟨rfl, le, rfl⟩
  | succ rem ih =>
    intro att le
    have hf := h att
    cases hout : f att with
    | success r =>
      have hr : r.success = false := by
        simpa [AttemptOutcome.isSuccess, hout] using hf
      have hrec := ih (att + 1) (attemptErrorMessage (.success r))
      simp only [retryGo, hout, hr, Bool.false_eq_true, if_false]
      exact ⟨by rw [hrec.1], hrec.2⟩
    | failure e =>
      have hrec := ih (att + 1) (attemptErrorMessage (.failure e))
      simp only [retryGo, hout]
      exact ⟨by rw [hrec.1], hrec.2⟩
    | thrown e =>
      have hrec := ih (att + 1) (attemptErrorMessage (.thrown e))
      simp only [retryGo, hout]
      exact ⟨by rw [hrec.1], hrec.2⟩

/-- C4 (amended).  A permanently failing unit is attempted exactly
`maxAttempts` times — no more, no fewer — and ends rejected, and the
batch is not aborted: in Scenario C (5 units, `maxConcurrent = 3`, unit
index 2 failing every attempt, `maxAttempts = 2`) the batch outcome has 4
successes and 1 failure, the failing unit having been attempted exactly
twice; its recorded error entry carries the unit's index, id and last
failure reason (the source records no attempt count on it). -/
theorem C4_retry_amended (ma : Nat) (f : Nat → AttemptOutcome)
    (h : ∀ k, (f k).isSuccess = false) :
    ((processChunkWithRetry ma f).1 = ma ∧
      ∃ m, (processChunkWithRetry ma f).2 = Except.error m) ∧
    ((processChunksInParallel cfgC behaviourC 0 chunks5).results.length = 4 ∧
     (processChunksInParallel cfgC behaviourC 0 chunks5).errors =
       [{ chunkIndex := 2, chunkId := "chunk_3", error := some "boom" }] ∧
     (processChunkWithRetry cfgC.retryAttempts (behaviourC 2)).1 = 2) :=
  ⟨retryGo_run_of_fail f h ma 1 none, by decide, by decide, by decide⟩

/-- Witness for C4: the permanently failing behaviour of Scenario C's
unit #3 is attempted exactly twice and rejected. -/
theorem C4_retry_witness :
    (∀ k, (behaviourC 2 k).isSuccess = false) ∧
    ((processChunkWithRetry 2 (behaviourC 2)).1 = 2 ∧
      ∃ m, (processChunkWithRetry 2 (behaviourC 2)).2 = Except.error m) :=
  ⟨fun _ => rfl, (C4_retry_amended 2 (behaviourC 2) (fun _ => rfl)).1⟩

/-- Counterexample for C4 as stated: the error entry recorded for a
permanently failing unit is the object `{ chunkIndex, chunkId, error }` —
it has no `attemptsMade` property at all, so no recorded result carries
`attemptsMade = maxAttempts`. -/
theorem C4_retry_cex :
    ¬ ("attemptsMade" ∈ errorEntryFields) ∧
    (processChunksInParallel cfgC behaviourC 0 chunks5).errors =
      [{ chunkIndex := 2, chunkId := "chunk_3", error := some "boom" }] :=
  ⟨by decide, by decide⟩

/-! ## Partition lemmas for the deterministic decomposition -/

/-- Counting inside a filtered list when the element fails the filter. -/
theorem count_filter_neg {α : Type} [BEq α] [LawfulBEq α] (p : α → Bool) (a : α)
    (l : List α) (h : p a = false) : (l.filter p).count a = 0 := by
  rw [List.count_eq_zero]
  intro hmem
  rw [List.mem_filter] at hmem
  rw [hmem.2] at h
  simp at h

/-- The seven classification buckets partition the occurrences of every
item: counting an item across the concatenated buckets equals counting it
in the input. -/
theorem count_flatten_groupsAll (files : List String) (a : String) :
    (((groupsAll files).map (fun g => g.2)).flatten).count a = files.count a := by
  cases h : classifyFile a <;>
    simp [groupsAll, allCategories, List.count_append, List.count_filter, count_filter_neg, h]

/-- The bucket sizes of the seven-way classification add up to the input
size: every file lands in exactly one bucket. -/
theorem sum_lengths_groupsAll (files : List String) :
    ((groupsAll files).map (fun g => g.2.length)).sum = files.length := by
  induction files with
  | nil => rfl
  | cons f rest ih =>
    simp only [groupsAll, allCategories, List.map_cons, List.map_nil, List.sum_cons,
      List.sum_nil, List.filter_cons] at ih ⊢
    cases h : classifyFile f <;> simp only [h] <;> simp <;> omega

/-- Deleting the empty buckets does not change the concatenation. -/
theorem flatten_filter_nonempty (gs : List (String × List String)) :
    ((gs.filter (fun g => !g.2.isEmpty)).map (fun g => g.2)).flatten =
      (gs.map (fun g => g.2)).flatten := by
  induction gs with
  | nil => rfl
  | cons g rest ih =>
    by_cases hg : g.2.isEmpty
    · have hnil : g.2 = [] := by simpa [List.isEmpty_iff] using hg
      simp [List.filter_cons, hg, hnil, ih]
    · simp [List.filter_cons, hg, ih]

/-- Deleting the empty buckets does not change the total size. -/
theorem sum_lengths_filter_nonempty (gs : List (String × List String)) :
    ((gs.filter (fun g => !g.2.isEmpty)).map (fun g => g.2.length)).sum =
      (gs.map (fun g => g.2.length)).sum := by
  induction gs with
  | nil => rfl
  | cons g rest ih =>
    by_cases hg : g.2.isEmpty
    · have hnil : g.2 = [] := by simpa [List.isEmpty_iff] using hg
      simp [List.filter_cons, hg, hnil, ih]
    · simp [List.filter_cons, hg, ih]

/-- The files of the chunk records of one bucket are exactly its pages. -/
theorem pagesToChunks_map_files (tname : String) :
    ∀ (cid part : Nat) (pages : List (List String)),
      (pagesToChunks tname cid part pages).map (fun c => c.files) = pages := by
  intro cid part pages
  induction pages generalizing cid part with
  | nil => rfl
  | cons pg rest ih => simp [pagesToChunks, ih]

/-- One chunk record per page. -/
theorem pagesToChunks_length (tname : String) :
    ∀ (cid part : Nat) (pages : List (List String)),
      (pagesToChunks tname cid part pages).length = pages.length := by
  intro cid part pages
  induction pages generalizing cid part with
  | nil => rfl
  | cons pg rest ih => simp [pagesToChunks, ih]

/-- The fallback chunk bodies are exactly the pages of all buckets, in
order; the id counter does not influence them. -/
theorem fallbackChunksGo_map_files (cs : Nat) :
    ∀ (cid : Nat) (gs : List (String × List String)),
      (fallbackChunksGo cs cid gs).map (fun c => c.files) =
        gs.flatMap (fun g => slicePages cs g.2) := by
  intro cid gs
  induction gs generalizing cid with
  | nil => rfl
  | cons g rest ih =>
    simp [fallbackChunksGo, List.map_append, pagesToChunks_map_files, ih]

/-- The fallback chunk count is the total page count of all buckets. -/
theorem fallbackChunksGo_length (cs : Nat) :
    ∀ (cid : Nat) (gs : List (String × List String)),
      (fallbackChunksGo cs cid gs).length =
        (gs.map (fun g => (slicePages cs g.2).length)).sum := by
  intro cid gs
  induction gs generalizing cid with
  | nil => rfl
  | cons g rest ih =>
    simp [fallbackChunksGo, List.length_append, pagesToChunks_length, ih]

/-- Concatenating all pages of all buckets restores the concatenated
buckets (page size ≥ 1). -/
theorem flatten_flatMap_slicePages (cs : Nat) (hcs : 1 ≤ cs)
    (gs : List (String × List String)) :
    (gs.flatMap (fun g => slicePages cs g.2)).flatten = (gs.map (fun g => g.2)).flatten := by
  induction gs with
  | nil => rfl
  | cons g rest ih =>
    simp [List.flatMap_cons, List.flatten_append, slicePages_flatten cs hcs, ih]

/-- With a positive size cap and a positive chunk-count cap, a non-empty
input gets a positive page size. -/
theorem one_le_chunkSizeOf (cfg : ChunkingConfig) (files : List String)
    (h1 : 1 ≤ cfg.maxChunkSize) (h2 : 1 ≤ cfg.maxChunks) (h3 : files ≠ []) :
    1 ≤ chunkSizeOf cfg files := by
  unfold chunkSizeOf
  have hlen : 1 ≤ files.length := by
    cases files with
    | nil => exact absurd rfl h3
    | cons x xs => simp
  refine le_min h1 ?_
  rw [Nat.one_le_div_iff h2]
  omega

/-- The deterministic fallback decomposition preserves every item's
multiplicity: nothing is dropped, nothing is duplicated. -/
theorem createFallbackChunks_coverage (cfg : ChunkingConfig) (files : List String)
    (h1 : 1 ≤ cfg.maxChunkSize) (h2 : 1 ≤ cfg.maxChunks) (a : String) :
    (((createFallbackChunks cfg files).chunks.map (fun c => c.files)).flatten).count a =
      files.count a := by
  by_cases hf : files = []
  · subst hf; rfl
  · have hcs := one_le_chunkSizeOf cfg files h1 h2 hf
    have hchunks : (createFallbackChunks cfg files).chunks =
        fallbackChunksGo (chunkSizeOf cfg files) 1 (groupFilesByType files) := rfl
    rw [hchunks, fallbackChunksGo_map_files,
      flatten_flatMap_slicePages (chunkSizeOf cfg files) hcs, groupFilesByType,
      flatten_filter_nonempty]
    exact count_flatten_groupsAll files a

/-- Every chunk surviving the proposal post-check is non-empty and keeps
only items that exist in the source list — and nothing more is checked. -/
theorem validateChunksGo_sound (allFiles : List String) :
    ∀ (idx : Nat) (pcs : List ProposedChunk) (c : Chunk),
      c ∈ validateChunksGo allFiles idx pcs →
        c.files ≠ [] ∧ ∀ f ∈ c.files, f ∈ allFiles := by
  intro idx pcs
  induction pcs generalizing idx with
  | nil => intro c hc; simp [validateChunksGo] at hc
  | cons pc rest ih =>
    intro c hc
    cases hpf : pc.files with
    | none =>
      rw [validateChunksGo, hpf] at hc
      exact ih _ c hc
    | some fs =>
      rw [validateChunksGo, hpf] at hc
      simp only [] at hc
      by_cases hv : (fs.filter (fun f => allFiles.contains f)).isEmpty
      · rw [if_pos hv] at hc
        exact ih _ c hc
      · rw [if_neg hv] at hc
        rcases List.mem_cons.mp hc with rfl | hmem
        · refine ⟨?_, ?_⟩
          · simpa [List.isEmpty_iff] using hv
          · intro f hfm
            have := (List.mem_filter.mp hfm).2
            simpa using this
        · exact ih _ c hmem

/-! ## C1: decomposition coverage -/

/-- C1 (amended).  Coverage holds exactly on the deterministic paths: the
fallback decomposition and the single-chunk bypass reproduce every item
exactly as often as it occurs in the input.  On the content-aware path
the post-check guarantees only that every surviving unit is non-empty and
contains only items of the source list; a proposal may still drop or
duplicate items. -/
theorem C1_coverage_amended :
    (∀ (cfg : ChunkingConfig) (files : List String),
       1 ≤ cfg.maxChunkSize → 1 ≤ cfg.maxChunks → ∀ a,
         (((createFallbackChunks cfg files).chunks.map (fun c => c.files)).flatten).count a =
           files.count a) ∧
    (∀ (files : List String) (a : String),
       (((createSingleChunk files).chunks.map (fun c => c.files)).flatten).count a =
         files.count a) ∧
    (∀ (pcs : List ProposedChunk) (allFiles : List String) (c : Chunk),
       c ∈ validateAndCleanChunks pcs allFiles →
         c.files ≠ [] ∧ ∀ f ∈ c.files, f ∈ allFiles) := by
  refine ⟨fun cfg files h1 h2 a => createFallbackChunks_coverage cfg files h1 h2 a, ?_, ?_⟩
  · intro files a
    simp [createSingleChunk]
  · intro pcs allFiles c hc
    exact validateChunksGo_sound allFiles 0 pcs c hc

/-- Witness for C1: a concrete two-item list decomposed by the fallback
strategy keeps each item exactly once. -/
theorem C1_coverage_witness :
    1 ≤ cfg800.maxChunkSize ∧ 1 ≤ cfg800.maxChunks ∧
    (∀ a, (((createFallbackChunks cfg800 ["x.ts", "y.md"]).chunks.map
        (fun c => c.files)).flatten).count a = (["x.ts", "y.md"] : List String).count a) :=
  ⟨by decide, by decide,
    C1_coverage_amended.1 cfg800 ["x.ts", "y.md"] (by decide) (by decide)⟩

/-- Counterexample for C1 as stated: on the content-aware path a
validated proposal that simply omits item `"b"` passes the post-check
unchanged, so the union of the decomposer's units misses `"b"`. -/
theorem C1_coverage_cex :
    (chunkRepository cexCfgC1 cexFilesC1 (.parsed (some cexProposalC1) "s" "t")).chunks.map
        (fun c => c.files) = [["a"]] ∧
    (((chunkRepository cexCfgC1 cexFilesC1
        (.parsed (some cexProposalC1) "s" "t")).chunks.map
        (fun c => c.files)).flatten).count "b" = 0 ∧
    cexFilesC1.count "b" = 1 :=
  ⟨by decide, by decide, by decide⟩

/-! ## C8: the deterministic fallback on an 800-item input -/

/-- Pages of size 80 cover the list: the page count times 80 is at least
the list length. -/
theorem slicePagesAux80_lower :
    ∀ (fuel : Nat) (l : List String), l.length ≤ fuel →
      l.length ≤ (slicePagesAux 80 fuel l).length * 80 := by
  intro fuel
  induction fuel with
  | zero =>
    intro l hl
    have : l = [] := List.length_eq_zero.mp (Nat.le_zero.mp hl)
    subst this
    simp
  | succ fuel ih =>
    intro l hl
    match l with
    | [] => simp [slicePagesAux]
    | a :: rest =>
      simp only [List.length_cons] at hl
      have hdrop : ((a :: rest).drop 80).length ≤ fuel := by
        simp only [List.length_drop, List.length_cons]
        omega
      have hrec := ih _ hdrop
      simp only [List.length_drop, List.length_cons] at hrec
      show (a :: rest).length ≤
        ((a :: rest).take 80 :: slicePagesAux 80 fuel ((a :: rest).drop 80)).length * 80
      simp only [List.length_cons]
      omega

/-- Pages of size 80 waste less than one page: the page count times 80
exceeds the list length by at most 79. -/
theorem slicePagesAux80_upper :
    ∀ (fuel : Nat) (l : List String), l.length ≤ fuel →
      (slicePagesAux 80 fuel l).length * 80 ≤ l.length + 79 := by
  intro fuel
  induction fuel with
  | zero =>
    intro l hl
    have : l = [] := List.length_eq_zero.mp (Nat.le_zero.mp hl)
    subst this
    simp [slicePagesAux]
  | succ fuel ih =>
    intro l hl
    match l with
    | [] => simp [slicePagesAux]
    | a :: rest =>
      simp only [List.length_cons] at hl
      have hdrop : ((a :: rest).drop 80).length ≤ fuel := by
        simp only [List.length_drop, List.length_cons]
        omega
      have hrec := ih _ hdrop
      simp only [List.length_drop, List.length_cons] at hrec
      show ((a :: rest).take 80 :: slicePagesAux 80 fuel ((a :: rest).drop 80)).length * 80 ≤
        (a :: rest).length + 79
      simp only [List.length_cons]
      omega

/-- Summing the 80-page counts over all buckets covers the total size. -/
theorem sum_pages80_lower (gs : List (String × List String)) :
    (gs.map (fun g => g.2.length)).sum ≤
      (gs.map (fun g => (slicePages 80 g.2).length)).sum * 80 := by
  induction gs with
  | nil => simp
  | cons g rest ih =>
    have h := slicePagesAux80_lower g.2.length g.2 (Nat.le_refl _)
    simp only [slicePages] at ih ⊢
    simp only [List.map_cons, List.sum_cons, Nat.add_mul]
    omega

/-- Summing the 80-page counts over all buckets wastes at most 79 slots
per bucket. -/
theorem sum_pages80_upper (gs : List (String × List String)) :
    (gs.map (fun g => (slicePages 80 g.2).length)).sum * 80 ≤
      (gs.map (fun g => g.2.length)).sum + 79 * gs.length := by
  induction gs with
  | nil => simp
  | cons g rest ih =>
    have h := slicePagesAux80_upper g.2.length g.2 (Nat.le_refl _)
    simp only [slicePages] at ih ⊢
    simp only [List.map_cons, List.sum_cons, Nat.add_mul, List.length_cons]
    have hmul : 79 * (rest.length + 1) = 79 * rest.length + 79 := by ring
    omega

/-- Every fallback chunk holds at most `chunkSize` items, for any
configuration and any input. -/
theorem fallback_chunk_size_le (cfg : ChunkingConfig) (files : List String) :
    ∀ c ∈ (createFallbackChunks cfg files).chunks, c.files.length ≤ chunkSizeOf cfg files := by
  intro c hc
  have hmem : c.files ∈ (createFallbackChunks cfg files).chunks.map (fun c => c.files) :=
    List.mem_map_of_mem _ hc
  have hchunks : (createFallbackChunks cfg files).chunks =
      fallbackChunksGo (chunkSizeOf cfg files) 1 (groupFilesByType files) := rfl
  rw [hchunks, fallbackChunksGo_map_files] at hmem
  rw [List.mem_flatMap] at hmem
  obtain ⟨g, _, hpg⟩ := hmem
  exact length_le_of_mem_slicePages _ _ _ hpg

/-- C8 (amended).  For every 800-item list with `maxUnitSize 200` and
`maxUnitCount 10`, the deterministic fallback produces between 10 and 16
units (at least `800 / 80 = 10` since every unit holds at most
`chunkSize = min(200, ceil(800/10)) = 80` items, and at most one partial
page for each of the at most 7 categories beyond those 10), covers all
800 items exactly, and gives each unit at most 80 — in particular at most
200 — items; in general every fallback unit holds at most
`chunkSize = min(maxUnitSize, ceil(totalItems/maxUnitCount))` items. -/
theorem C8_fallback_amended (files : List String) (h : files.length = 800) :
    10 ≤ (createFallbackChunks cfg800 files).chunks.length ∧
    (createFallbackChunks cfg800 files).chunks.length ≤ 16 ∧
    (∀ c ∈ (createFallbackChunks cfg800 files).chunks, c.files.length ≤ 80) ∧
    (∀ a, (((createFallbackChunks cfg800 files).chunks.map (fun c => c.files)).flatten).count a =
      files.count a) ∧
    (∀ (cfg : ChunkingConfig) (files' : List String),
       ∀ c ∈ (createFallbackChunks cfg files').chunks,
         c.files.length ≤ chunkSizeOf cfg files') := by
  have hcs : chunkSizeOf cfg800 files = 80 := by
    simp [chunkSizeOf, cfg800, h]
  have hchunks : (createFallbackChunks cfg800 files).chunks =
      fallbackChunksGo 80 1 (groupFilesByType files) := by
    rw [show (createFallbackChunks cfg800 files).chunks =
      fallbackChunksGo (chunkSizeOf cfg800 files) 1 (groupFilesByType files) from rfl, hcs]
  have hlensum : ((groupFilesByType files).map (fun g => g.2.length)).sum = 800 := by
    rw [groupFilesByType, sum_lengths_filter_nonempty, sum_lengths_groupsAll, h]
  have hk : (groupFilesByType files).length ≤ 7 := by
    have h7 : (groupsAll files).length = 7 := by simp [groupsAll, allCategories]
    have := List.length_filter_le (fun g => !g.2.isEmpty) (groupsAll files)
    rw [h7] at this
    exact this
  have hlen : (createFallbackChunks cfg800 files).chunks.length =
      ((groupFilesByType files).map (fun g => (slicePages 80 g.2).length)).sum := by
    rw [hchunks, fallbackChunksGo_length]
  have hlow := sum_pages80_lower (groupFilesByType files)
  have hupp := sum_pages80_upper (groupFilesByType files)
  rw [hlensum] at hlow hupp
  refine ⟨?_, ?_, ?_, ?_, ?_⟩
  · rw [hlen]; omega
  · rw [hlen]; omega
  · intro c hc
    have := fallback_chunk_size_le cfg800 files c hc
    rw [hcs] at this
    exact this
  · intro a
    exact createFallbackChunks_coverage cfg800 files (by decide) (by decide) a
  · intro cfg files' c hc
    exact fallback_chunk_size_le cfg files' c hc

/-- Witness for C8: the amended bounds at the concrete 800-item input. -/
theorem C8_fallback_witness :
    files800.length = 800 ∧
    10 ≤ (createFallbackChunks cfg800 files800).chunks.length ∧
    (createFallbackChunks cfg800 files800).chunks.length ≤ 16 := by
  have hl : files800.length = 800 := by simp [files800]
  exact ⟨hl, (C8_fallback_amended files800 hl).1, (C8_fallback_amended files800 hl).2.1⟩

set_option maxRecDepth 200000 in
set_option maxHeartbeats 4000000 in
/-- Counterexample for C8 as stated: the concrete 800-item list with one
`Frontend` item and 799 `Other` items yields 11 fallback units — outside
the claimed range of 4 to 10 (chunkSize is `min(200, ceil(800/10)) = 80`,
so a category boundary forces an eleventh partial unit). -/
theorem C8_fallback_cex :
    files800.length = 800 ∧
    (createFallbackChunks cfg800 files800).chunks.length = 11 ∧
    ¬ ((createFallbackChunks cfg800 files800).chunks.length ≤ 10) := by
  have h : (createFallbackChunks cfg800 files800).chunks.length = 11 := by decide
  exact ⟨by simp [files800], h, by omega⟩

/-! ## C7: architecture-label tie-breaking -/

/-- A present element's first occurrence lies inside the list. -/
theorem posIn_lt_length (l : List String) (a : String) (h : a ∈ l) :
    posIn l a < l.length := by
  induction l with
  | nil => simp at h
  | cons x rest ih =>
    by_cases hx : x = a
    · simp [posIn, hx]
    · have : a ∈ rest := by
        rcases List.mem_cons.mp h with h' | h'
        · exact absurd h'.symm hx
        · exact h'
      simp only [posIn, hx, if_false, List.length_cons]
      exact Nat.succ_lt_succ (ih this)

/-- Appending on the right does not move an existing first occurrence. -/
theorem posIn_append_of_mem (l t : List String) (a : String) (h : a ∈ l) :
    posIn (l ++ t) a = posIn l a := by
  induction l with
  | nil => simp at h
  | cons x rest ih =>
    by_cases hx : x = a
    · simp [posIn, hx]
    · have : a ∈ rest := by
        rcases List.mem_cons.mp h with h' | h'
        · exact absurd h'.symm hx
        · exact h'
      simp only [List.cons_append, posIn, hx, if_false, List.append_eq]
      rw [ih this]

/-- A fresh element first occurs after the whole prefix. -/
theorem posIn_append_of_not_mem (l t : List String) (a : String) (h : a ∉ l) :
    posIn (l ++ t) a = l.length + posIn t a := by
  induction l with
  | nil => simp
  | cons x rest ih =>
    have hx : x ≠ a := fun hxa => h (by simp [hxa])
    have hrest : a ∉ rest := fun hr => h (List.mem_cons_of_mem _ hr)
    simp only [List.cons_append, posIn, hx, if_false, List.length_cons, List.append_eq]
    rw [ih hrest]
    omega

/-- Characterization of the `reduce` fold of `determineArchitecturePattern`:
the picked entry is a member splitting the entry list so that everything
strictly after it has a strictly smaller count, and nothing anywhere has a
larger count — i.e. the fold returns the last entry attaining the maximum
count. -/
theorem pickTop_split :
    ∀ (es : List (String × Nat)) (a : String × Nat),
      ∃ l₁ l₂, a :: es = l₁ ++ pickTop a es :: l₂ ∧
        (∀ x ∈ l₂, x.2 < (pickTop a es).2) ∧
        (∀ x ∈ a :: es, x.2 ≤ (pickTop a es).2) := by
  intro es
  induction es with
  | nil =>
    intro a
    exact ⟨[], [], rfl, by simp, by simp [pickTop]⟩
  | cons b rest ih =>
    intro a
    by_cases hb : b.2 < a.2
    · obtain ⟨l₁, l₂, heq, hl₂, hall⟩ := ih a
      have hpk : pickTop a (b :: rest) = pickTop a rest := by
        simp [pickTop, hb]
      cases l₁ with
      | nil =>
        have hhead : a = pickTop a rest := by simpa using congrArg (fun l => l.head?) heq
        have htail : rest = l₂ := by simpa using congrArg (fun l => l.tail) heq
        refine ⟨[], b :: rest, ?_, ?_, ?_⟩
        · rw [hpk, ← hhead]
          rfl
        · intro x hx
          rw [hpk, ← hhead]
          rcases List.mem_cons.mp hx with rfl | hx'
          · exact hb
          · have := hl₂ x (htail ▸ hx')
            rw [← hhead] at this
            exact this
        · intro x hx
          rw [hpk]
          rcases List.mem_cons.mp hx with rfl | hx'
          · exact hall x (by simp)
          · rcases List.mem_cons.mp hx' with rfl | hx''
            · exact Nat.le_of_lt (by rw [← hhead]; exact hb)
            · exact hall x (by simp [hx''])
      | cons a' l₁' =>
        have ha' : a' = a := by simpa using (congrArg (fun l => l.head?) heq).symm
        have hrest : rest = l₁' ++ pickTop a rest :: l₂ := by
          have := congrArg (fun l => l.tail) heq
          simpa using this
        refine ⟨a :: b :: l₁', l₂, ?_, ?_, ?_⟩
        · rw [hpk]
          conv_lhs => rw [hrest]
          simp
        · intro x hx
          rw [hpk]
          exact hl₂ x hx
        · intro x hx
          rw [hpk]
          rcases List.mem_cons.mp hx with rfl | hx'
          · exact hall x (by simp)
          · rcases List.mem_cons.mp hx' with rfl | hx''
            · exact Nat.le_of_lt (Nat.lt_of_lt_of_le hb (hall a (by simp)))
            · exact hall x (by simp [hx''])
    · obtain ⟨l₁, l₂, heq, hl₂, hall⟩ := ih b
      have hpk : pickTop a (b :: rest) = pickTop b rest := by
        simp [pickTop, hb]
      refine ⟨a :: l₁, l₂, ?_, ?_, ?_⟩
      · rw [hpk]
        simp only [List.cons_append]
        rw [← heq]
      · intro x hx
        rw [hpk]
        exact hl₂ x hx
      · intro x hx
        rw [hpk]
        rcases List.mem_cons.mp hx with rfl | hx'
        · exact Nat.le_trans (Nat.le_of_not_lt hb) (hall b (by simp))
        · exact hall x hx'

/-- The existence test of `bumpCount` is key membership. -/
theorem any_key_iff (m : List (String × Nat)) (p : String) :
    m.any (fun e => e.1 == p) = true ↔ p ∈ m.map (fun e => e.1) := by
  simp [List.any_eq_true, List.mem_map, beq_iff_eq]

/-- Counting an element in a one-element list of something else. -/
theorem count_single_of_ne (a b : String) (h : a ≠ b) : List.count a [b] = 0 := by
  rw [List.count_eq_zero]
  simp [h]

/-- Bumping an existing key changes no keys. -/
theorem keys_bump_map (m : List (String × Nat)) (p : String) :
    (m.map (fun e => if e.1 == p then (e.1, e.2 + 1) else e)).map (fun e => e.1) =
      m.map (fun e => e.1) := by
  rw [List.map_map]
  apply List.map_congr_left
  intro e _
  by_cases hp : (e.1 == p) = true
  · simp [Function.comp, hp]
  · simp [Function.comp, hp]

/-- Folding one more pattern into the count table. -/
theorem patternCounts_append (ps : List String) (p : String) :
    patternCounts (ps ++ [p]) = bumpCount (patternCounts ps) p := by
  simp [patternCounts, List.foldl_append]

/-- Invariants of the insertion-ordered count table: every entry holds
its key's exact multiplicity and its key occurs in the input; keys are
distinct; every input pattern has an entry; and the keys are ordered by
first occurrence in the input. -/
theorem patternCounts_spec (ps : List String) :
    (∀ e ∈ patternCounts ps, e.2 = ps.count e.1 ∧ e.1 ∈ ps) ∧
    ((patternCounts ps).map (fun e => e.1)).Nodup ∧
    (∀ p ∈ ps, p ∈ (patternCounts ps).map (fun e => e.1)) ∧
    ((patternCounts ps).map (fun e => e.1)).Pairwise (fun x y => posIn ps x < posIn ps y) := by
  induction ps using List.reverseRecOn with
  | nil =>
    exact ⟨fun e he => by simp [patternCounts] at he,
      by simp [patternCounts],
      fun p hp => by simp at hp,
      by simp [patternCounts]⟩
  | append_singleton ps' p ih =>
    obtain ⟨ih1, ih2, ih3, ih4⟩ := ih
    have hkeys_sub : ∀ x ∈ (patternCounts ps').map (fun e => e.1), x ∈ ps' := by
      intro x hx
      obtain ⟨e, he, rfl⟩ := List.mem_map.mp hx
      exact (ih1 e he).2
    rw [patternCounts_append]
    by_cases hin : (patternCounts ps').any (fun e => e.1 == p) = true
    · have hpmem : p ∈ (patternCounts ps').map (fun e => e.1) := (any_key_iff _ _).mp hin
      have hbump : bumpCount (patternCounts ps') p =
          (patternCounts ps').map (fun e => if e.1 == p then (e.1, e.2 + 1) else e) := by
        simp [bumpCount, hin]
      rw [hbump]
      have hkeys := keys_bump_map (patternCounts ps') p
      refine ⟨?_, ?_, ?_, ?_⟩
      · intro e he
        obtain ⟨e', he', heq⟩ := List.mem_map.mp he
        cases hep : (e'.1 == p) with
        | true =>
          have he1 : e'.1 = p := eq_of_beq hep
          rw [hep] at heq
          simp only [if_true] at heq
          subst heq
          have h1 := ih1 e' he'
          refine ⟨?_, ?_⟩
          · rw [List.count_append, h1.1, he1]
            simp
          · exact List.mem_append_left _ h1.2
        | false =>
          rw [hep] at heq
          simp only [Bool.false_eq_true, if_false] at heq
          subst heq
          have h1 := ih1 e' he'
          have hne : e'.1 ≠ p := beq_eq_false_iff_ne.mp hep
          refine ⟨?_, ?_⟩
          · rw [List.count_append, count_single_of_ne _ _ hne]
            omega
          · exact List.mem_append_left _ h1.2
      · rw [hkeys]; exact ih2
      · intro q hq
        rw [hkeys]
        rcases List.mem_append.mp hq with hq' | hq'
        · exact ih3 q hq'
        · have : q = p := by simpa using hq'
          subst this
          exact hpmem
      · rw [hkeys]
        refine List.Pairwise.imp_of_mem ?_ ih4
        intro x y hx hy hxy
        rw [posIn_append_of_mem ps' [p] x (hkeys_sub x hx),
          posIn_append_of_mem ps' [p] y (hkeys_sub y hy)]
        exact hxy
    · have hanyf : (patternCounts ps').any (fun e => e.1 == p) = false := by
        cases hb : (patternCounts ps').any (fun e => e.1 == p) with
        | true => exact absurd hb hin
        | false => rfl
      have hbump : bumpCount (patternCounts ps') p = patternCounts ps' ++ [(p, 1)] := by
        simp [bumpCount, hanyf]
      have hpnotkeys : p ∉ (patternCounts ps').map (fun e => e.1) :=
        fun hmem => hin ((any_key_iff _ _).mpr hmem)
      have hpnotps : p ∉ ps' := fun hp => hpnotkeys (ih3 p hp)
      rw [hbump]
      refine ⟨?_, ?_, ?_, ?_⟩
      · intro e he
        rcases List.mem_append.mp he with he' | he'
        · have h1 := ih1 e he'
          have hne : e.1 ≠ p := fun hep => hpnotkeys (hep ▸ List.mem_map_of_mem _ he')
          refine ⟨?_, List.mem_append_left _ h1.2⟩
          rw [List.count_append, count_single_of_ne _ _ hne]
          omega
        · have : e = (p, 1) := by simpa using he'
          subst this
          refine ⟨?_, by simp⟩
          rw [List.count_append, List.count_eq_zero.mpr hpnotps]
          simp
      · rw [List.map_append, List.nodup_append]
        refine ⟨ih2, by simp, ?_⟩
        intro x hx
        simp only [List.map_cons, List.map_nil, List.mem_cons, List.not_mem_nil, or_false]
        intro hxp
        exact hpnotkeys (hxp ▸ hx)
      · intro q hq
        rw [List.map_append]
        rcases List.mem_append.mp hq with hq' | hq'
        · exact List.mem_append_left _ (ih3 q hq')
        · have : q = p := by simpa using hq'
          subst this
          simp
      · rw [List.map_append, List.pairwise_append]
        refine ⟨?_, by simp, ?_⟩
        · refine List.Pairwise.imp_of_mem ?_ ih4
          intro x y hx hy hxy
          rw [posIn_append_of_mem ps' [p] x (hkeys_sub x hx),
            posIn_append_of_mem ps' [p] y (hkeys_sub y hy)]
          exact hxy
        · intro x hx y hy
          have hyp : y = p := by simpa using hy
          rw [hyp]
          have hxps : x ∈ ps' := hkeys_sub x hx
          rw [posIn_append_of_mem ps' [p] x hxps, posIn_append_of_not_mem ps' [p] p hpnotps]
          have hxl := posIn_lt_length ps' x hxps
          simp only [posIn, if_pos rfl]
          omega

/-- C7 (amended).  In the deterministic merge, for every non-empty
sequence of non-empty labels, the unified architecture label is a label
of maximal multiplicity; when two labels are tied for most frequent, the
label whose first occurrence comes later wins (the `reduce` keeps the
later entry on ties), not the one that occurred first. -/
theorem C7_tiebreak_amended (results : List ChunkSuccess) (h : patternsOf results ≠ []) :
    determineArchitecturePattern results ∈ patternsOf results ∧
    (∀ l ∈ patternsOf results,
      (patternsOf results).count l ≤
        (patternsOf results).count (determineArchitecturePattern results)) ∧
    (∀ l ∈ patternsOf results,
      (patternsOf results).count l =
        (patternsOf results).count (determineArchitecturePattern results) →
      posIn (patternsOf results) l ≤
        posIn (patternsOf results) (determineArchitecturePattern results)) := by
  obtain ⟨s1, s2, s3, s4⟩ := patternCounts_spec (patternsOf results)
  have hie : (patternsOf results).isEmpty = false := by
    cases hq : patternsOf results with
    | nil => exact absurd hq h
    | cons q qs => rfl
  cases hpc : patternCounts (patternsOf results) with
  | nil =>
    exfalso
    cases hq : patternsOf results with
    | nil => exact h hq
    | cons q qs =>
      have := s3 q (by rw [hq]; exact List.mem_cons_self q qs)
      rw [hpc] at this
      simp at this
  | cons e es =>
    have hdet : determineArchitecturePattern results = (pickTop e es).1 := by
      unfold determineArchitecturePattern
      simp only [hie, Bool.false_eq_true, if_false, hpc]
    rw [hdet]
    obtain ⟨l₁, l₂, heq, hl₂, hall⟩ := pickTop_split es e
    have hentry : patternCounts (patternsOf results) = l₁ ++ pickTop e es :: l₂ := by
      rw [hpc]; exact heq
    have hpkmem : pickTop e es ∈ patternCounts (patternsOf results) := by
      rw [hentry]; exact List.mem_append_right _ (List.mem_cons_self _ _)
    have hpk := s1 _ hpkmem
    refine ⟨hpk.2, ?_, ?_⟩
    · intro l hl
      obtain ⟨el, helm, hel1⟩ := List.mem_map.mp (s3 l hl)
      have hcnt : el.2 = (patternsOf results).count l := by
        rw [← hel1]; exact (s1 el helm).1
      have hin : el ∈ e :: es := by rw [hpc] at helm; exact helm
      have hle := hall el hin
      rw [hcnt] at hle
      rw [hpk.1] at hle
      exact hle
    · intro l hl htie
      obtain ⟨el, helm, hel1⟩ := List.mem_map.mp (s3 l hl)
      have hcnt : el.2 = (patternsOf results).count l := by
        rw [← hel1]; exact (s1 el helm).1
      have helm' : el ∈ l₁ ++ pickTop e es :: l₂ := by rw [← hentry]; exact helm
      rcases List.mem_append.mp helm' with hmem1 | hmem2
      · have hkeyeq : (patternCounts (patternsOf results)).map (fun x => x.1) =
            l₁.map (fun x => x.1) ++ (pickTop e es).1 :: l₂.map (fun x => x.1) := by
          rw [hentry]; simp
        have hpair := s4
        rw [hkeyeq, List.pairwise_append] at hpair
        have hlt := hpair.2.2 el.1 (List.mem_map_of_mem _ hmem1) (pickTop e es).1
          (List.mem_cons_self _ _)
        rw [hel1] at hlt
        exact Nat.le_of_lt hlt
      · rcases List.mem_cons.mp hmem2 with heqpk | hmem2'
        · rw [← hel1, heqpk]
        · exfalso
          have hlt := hl₂ el hmem2'
          rw [hcnt, hpk.1] at hlt
          omega

/-- Witness for C7 at the tied two-label input. -/
theorem C7_tiebreak_witness :
    patternsOf tiedResults ≠ [] ∧
    (determineArchitecturePattern tiedResults ∈ patternsOf tiedResults ∧
     (∀ l ∈ patternsOf tiedResults,
       (patternsOf tiedResults).count l ≤
         (patternsOf tiedResults).count (determineArchitecturePattern tiedResults)) ∧
     (∀ l ∈ patternsOf tiedResults,
       (patternsOf tiedResults).count l =
         (patternsOf tiedResults).count (determineArchitecturePattern tiedResults) →
       posIn (patternsOf tiedResults) l ≤
         posIn (patternsOf tiedResults) (determineArchitecturePattern tiedResults))) :=
  ⟨by decide, C7_tiebreak_amended tiedResults (by decide)⟩

/-- Counterexample for C7 as stated: labels `"A"` and `"B"` are tied at
one occurrence each with `"A"` first, yet the merge returns `"B"` — the
tie is broken toward the later label, not the first. -/
theorem C7_tiebreak_cex :
    patternsOf tiedResults = ["A", "B"] ∧
    (patternsOf tiedResults).count "A" = 1 ∧
    (patternsOf tiedResults).count "B" = 1 ∧
    posIn (patternsOf tiedResults) "A" < posIn (patternsOf tiedResults) "B" ∧
    determineArchitecturePattern tiedResults = "B" ∧
    determineArchitecturePattern tiedResults ≠ "A" :=
  ⟨by decide, by decide, by decide, by decide, by decide, by decide⟩

end RepoAnalyzer
